import Mathlib

/-!
Verification development for the AI-gateway data-plane core.

The Go sources are shallowly embedded: pure Go functions become Lean
functions, Go errors become `Except`/`Option` results, Go byte slices
become `String`s (bytes are modelled as characters; `len` on a body is
modelled by `String.utf8ByteSize`), and Go `float64` parameters that are
only stored and compared are modelled as `ℚ`.  External library calls
(JSON decoding of incoming bytes, Kubernetes clients, HTTP clients) are
modelled as explicit inputs carrying their results.
-/

set_option autoImplicit false

namespace AIGW

/-! Section: JSON values

Go's `encoding/json` / `sjson` layer is modelled by an explicit JSON value
type.  `Json`/`JsonList`/`JsonFields` are a mutual inductive (rather than a
nested one) so that all functions over them are structurally recursive and
compute by `rfl`/`decide`. -/

mutual

inductive Json where
  | null : Json
  | jbool (b : Bool) : Json
  | jint (n : Int) : Json
  | jrat (q : ℚ) : Json
  | jstr (s : String) : Json
  | jarr (xs : JsonList) : Json
  | jobj (fs : JsonFields) : Json

inductive JsonList where
  | nil : JsonList
  | cons (hd : Json) (tl : JsonList) : JsonList

inductive JsonFields where
  | nil : JsonFields
  | cons (key : String) (val : Json) (tl : JsonFields) : JsonFields

end

/-- Build a `JsonList` from a Lean list. -/
def JsonList.ofList : List Json → JsonList
  | [] => .nil
  | x :: xs => .cons x (JsonList.ofList xs)

/-- Build `JsonFields` from a Lean association list. -/
def JsonFields.ofList : List (String × Json) → JsonFields
  | [] => .nil
  | (k, v) :: fs => .cons k v (JsonFields.ofList fs)

/-- Concatenation of JSON object fields. -/
def JsonFields.append : JsonFields → JsonFields → JsonFields
  | .nil, gs => gs
  | .cons k v fs, gs => .cons k v (JsonFields.append fs gs)

/-- First value bound to `k`, as Go's JSON object key lookup sees it. -/
def JsonFields.lookupKey : JsonFields → String → Option Json
  | .nil, _ => none
  | .cons k v fs, key => if k = key then some v else JsonFields.lookupKey fs key

/-- Models `sjson.SetBytes` on an object: replace the first binding of `k`, or
append the new key at the end when absent. -/
def JsonFields.setKey : JsonFields → String → Json → JsonFields
  | .nil, key, v => .cons key v .nil
  | .cons k w fs, key, v =>
      if k = key then .cons k v fs else .cons k w (JsonFields.setKey fs key v)

/-- Key lookup on a JSON value (objects only). -/
def Json.lookup : Json → String → Option Json
  | .jobj fs, key => fs.lookupKey key
  | _, _ => none

/-- Models `sjson.SetBytes` at the JSON-value level.  On non-objects the
claims never use it; it is the identity there. -/
def Json.setKey : Json → String → Json → Json
  | .jobj fs, key, v => .jobj (fs.setKey key v)
  | j, _, _ => j

/-- String escaping of Go's JSON encoder, restricted to quote and
backslash (control/HTML escaping is not load-bearing for any claim). -/
def escapeJChar (c : Char) : String :=
  if c = '"' then "\\\"" else if c = '\\' then "\\\\" else String.singleton c

def escapeJString (s : String) : String :=
  String.join (s.toList.map escapeJChar)

def renderJString (s : String) : String :=
  "\"" ++ escapeJString s ++ "\""

mutual

/-- Serialization of a JSON value, modelling `json.Marshal` output.
Literal braces are written with `\x7b`/`\x7d` escapes. -/
def Json.render : Json → String
  | .null => "null"
  | .jbool true => "true"
  | .jbool false => "false"
  | .jint n => toString n
  | .jrat q => toString q
  | .jstr s => renderJString s
  | .jarr xs => "[" ++ JsonList.render xs ++ "]"
  | .jobj fs => "\x7b" ++ JsonFields.render fs ++ "\x7d"

def JsonList.render : JsonList → String
  | .nil => ""
  | .cons x .nil => Json.render x
  | .cons x (.cons y tl) => Json.render x ++ "," ++ JsonList.render (.cons y tl)

def JsonFields.render : JsonFields → String
  | .nil => ""
  | .cons k v .nil => renderJString k ++ ":" ++ Json.render v
  | .cons k v (.cons k2 v2 tl) =>
      renderJString k ++ ":" ++ Json.render v ++ "," ++ JsonFields.render (.cons k2 v2 tl)

end

/-! Section: Base64 (Go encoding/base64, StdEncoding)

`DecodeString` ignores `\r`/`\n`, requires the standard alphabet with `=`
padding and a total length that is a multiple of four; any other byte, or
misplaced padding, is an error.  Bytes are modelled as `Nat`s. -/

def b64Val (c : Char) : Option Nat :=
  if 'A' ≤ c ∧ c ≤ 'Z' then some (c.toNat - 'A'.toNat)
  else if 'a' ≤ c ∧ c ≤ 'z' then some (c.toNat - 'a'.toNat + 26)
  else if '0' ≤ c ∧ c ≤ '9' then some (c.toNat - '0'.toNat + 52)
  else if c = '+' then some 62
  else if c = '/' then some 63
  else none

def decodeQuads : List Char → Option (List Nat)
  | [] => some []
  | c1 :: c2 :: c3 :: c4 :: rest =>
      match b64Val c1, b64Val c2 with
      | some v1, some v2 =>
        if c3 = '=' then
          if c4 = '=' ∧ rest = [] then some [v1 * 4 + v2 / 16] else none
        else
          match b64Val c3 with
          | some v3 =>
            if c4 = '=' then
              if rest = [] then some [v1 * 4 + v2 / 16, (v2 % 16) * 16 + v3 / 4]
              else none
            else
              match b64Val c4 with
              | some v4 =>
                match decodeQuads rest with
                | some bs =>
                    some ([v1 * 4 + v2 / 16, (v2 % 16) * 16 + v3 / 4,
                           (v3 % 4) * 64 + v4] ++ bs)
                | none => none
              | none => none
          | none => none
      | _, _ => none
  | _ => none

/-- Models `base64.StdEncoding.DecodeString`. -/
def decodeBase64 (s : String) : Option (List Nat) :=
  decodeQuads (s.toList.filter (fun c => ¬ (c = '\n' ∨ c = '\r')))

def b64Alphabet : String :=
  "ABCDEFGHIJKLMNOPQRSTUVWXYZabcdefghijklmnopqrstuvwxyz0123456789+/"

def b64Char (n : Nat) : Char := (b64Alphabet.toList.getD n 'A')

/-- Models `base64.StdEncoding.EncodeToString`. -/
def encodeBase64Bytes : List Nat → List Char
  | [] => []
  | [b1] => [b64Char (b1 / 4), b64Char ((b1 % 4) * 16), '=', '=']
  | [b1, b2] =>
      [b64Char (b1 / 4), b64Char ((b1 % 4) * 16 + b2 / 16),
       b64Char ((b2 % 16) * 4), '=']
  | b1 :: b2 :: b3 :: rest =>
      [b64Char (b1 / 4), b64Char ((b1 % 4) * 16 + b2 / 16),
       b64Char ((b2 % 16) * 4 + b3 / 64), b64Char (b3 % 64)]
      ++ encodeBase64Bytes rest

def encodeBase64 (bs : List Nat) : String := String.mk (encodeBase64Bytes bs)

/-! Section: util.go, data-URI parsing and GCP request mutations -/

/-- Go errors carried by the embedded functions.  Constructors follow the
`fmt.Errorf` sites of the source; `render` below gives the messages the
claims quote. -/
inductive Err where
  | dataURIInvalidFormat
  | base64Corrupt
  | failedParseImage (inner : Err)
  | audioNotSupported
  | unsupportedContentType
  | unsupportedStringOrArray
  | unsupportedRole (r : String)
  | nilStopValue
  | tempNotSupported (t : ℚ)
  | streamingNotSupported
  | invalidToolChoice (s : String)
  | toolParamsNotObject (name : String)
  | toolArgsUnmarshal
  | assistantContentTypeNotSupported
  | invalidStopReason (s : String)
  | invalidAnthropicRole (r : String)
  | statusParse (s : String)
  | unmarshalBody
  | jsonErrorDecode
  | maxTokensRequired
  | unsupportedDeveloperContent
  | unsupportedUserContent
  | unsupportedToolContent
  | unsupportedAssistantContent
  | invalidImageURL
  | invalidImageMediaType (mediaType : String)
  | failedParseDataURI (inner : Err)
  | geminiAudioNotSupported
  | geminiToolArgsUnmarshal
  | invalidGeminiRole (r : String)
  | geminiWrap (site : String) (inner : Err)
deriving DecidableEq

/-- Fixed-two-decimal formatting of a rational, modelling Go's `%.2f`
verb for the non-negative exact-hundredth values the claims use (where
all rounding modes agree). -/
def formatFixed2 (q : ℚ) : String :=
  let n : Int := Int.fdiv (q.num * 200 + (q.den : Int)) (2 * (q.den : Int))
  let whole := Int.fdiv n 100
  let frac := (Int.emod n 100).toNat
  toString whole ++ "." ++ (if frac < 10 then "0" else "") ++ toString frac

/-- Messages of the `fmt.Errorf` format strings quoted by the claims. -/
def Err.render : Err → String
  | .tempNotSupported t =>
      "temperature " ++ formatFixed2 t ++
      " is not supported by Anthropic (must be between 0.0 and 1.0)"
  | .streamingNotSupported => "streaming is not yet supported for GCP Anthropic translation"
  | .dataURIInvalidFormat => "data uri does not have a valid format"
  | .audioNotSupported => "input audio content not supported yet"
  | .failedParseImage inner => "failed to parse image URL: " ++ inner.render
  | .base64Corrupt => "illegal base64 data"
  | _ => ""

/-- Matcher for the anchored regex `\Adata:(.+?)?(;base64)?,` of
`util.go`.  Scans for the shortest prefix after `data:` (the lazy group
one, which may not contain a newline) that is terminated by `;base64,` or
by `,`; returns the media type and the remaining payload. -/
def dataURIScan (acc : List Char) : List Char → Option (String × List Char)
  | [] => none
  | c :: cs =>
    if List.isPrefixOf ";base64,".toList (c :: cs) then
      some (String.mk acc.reverse, (c :: cs).drop 8)
    else if c = ',' then
      some (String.mk acc.reverse, cs)
    else if c = '\n' then none
    else dataURIScan (c :: acc) cs

/-- The submatch of `regDataURI` against `uri`, when the regex matches:
the media type (group one, possibly empty) and the payload following the
matched prefix. -/
def dataURIMatch (uri : String) : Option (String × List Char) :=
  if List.isPrefixOf "data:".toList uri.toList then
    dataURIScan [] (uri.toList.drop 5)
  else none

/-- Function `parseDataURI` of `util.go`: regex match, then strict std base64
decoding of the payload. -/
def parseDataURI (uri : String) : Except Err (String × List Nat) :=
  match dataURIMatch uri with
  | none => .error .dataURIInvalidFormat
  | some (contentType, payload) =>
    match decodeBase64 (String.mk payload) with
    | none => .error .base64Corrupt
    | some bin => .ok (contentType, bin)

/-- Header mutations are modelled as the list of set `(key, value)`
pairs; body mutations as the body string (bytes). -/
abbrev HeaderMut := List (String × String)

/-- Function `buildGCPRequestMutations` of `util.go`: sets `:path` and a
`content-length` holding the decimal byte length of the body. -/
def buildGCPRequestMutations (path : String) (reqBody : String) :
    HeaderMut × String :=
  ([(":path", path), ("content-length", toString reqBody.utf8ByteSize)], reqBody)

/-- Function `buildGCPModelPathSuffix` of `gemini_helper.go`. -/
def buildGCPModelPathSuffix (publisher model gcpMethod : String) : String :=
  "publishers/" ++ publisher ++ "/models/" ++ model ++ ":" ++ gcpMethod

/-- Modelled from the spec: `setContentLength` is used by the translators
in `src` but its definition is not among the provided files.  Per the
content-length contract (spec §4.3/§8.1: the emitted `content-length`
equals the byte length of the body), it sets that single header. -/
def setContentLength (body : String) : HeaderMut :=
  [("content-length", toString body.utf8ByteSize)]

/-- Modelled from the spec: `isGoodStatusCode` is referenced by
`ResponseBody` in `src` but not defined there; the spec calls the guarded
range "the successful range", modelled as 2xx. -/
def isGoodStatusCode (status : Int) : Bool :=
  200 ≤ status ∧ status < 300

/-- Models `strconv.Atoi`: optional sign followed by at least one digit
(overflow is not modelled; the claims only use small values). -/
def digitsToNat : List Char → Option Nat
  | [] => none
  | ds =>
    if ds.all (fun c => '0' ≤ c ∧ c ≤ '9') then
      some (ds.foldl (fun n c => n * 10 + (c.toNat - '0'.toNat)) 0)
    else none

def goAtoi (s : String) : Option Int :=
  match s.toList with
  | '+' :: ds => (digitsToNat ds).map Int.ofNat
  | '-' :: ds => (digitsToNat ds).map (fun n => -(Int.ofNat n))
  | ds => (digitsToNat ds).map Int.ofNat

/-- Models `strings.Contains hay needle`. -/
def strContains (hay needle : String) : Bool :=
  decide (List.IsInfix needle.toList hay.toList)

/-- Header map lookup (Go `map[string]string` indexing). -/
def lookupHeader (hs : List (String × String)) (k : String) : Option String :=
  (hs.find? (fun p => p.1 = k)).map (fun p => p.2)

/-! Section: the OpenAI request data model (internal/apischema/openai)

Only the fields the embedded translators read are modelled.  Dynamic Go
`interface{}` contents become explicit sums whose constructors are the
dynamic types the source's type switches test for. -/

/-- One element of `[]ChatCompletionContentPartUserUnionParam`: exactly one
of the three pointers is set, or none of them (in which case every
translator's switch skips the part). -/
inductive UserContentPart where
  | textPart (text : String)
  | imagePart (url : String)
  | audioPart
  | emptyPart
deriving DecidableEq

/-- Dynamic value inside an `openai.StringOrArray` wrapper, as the type
switches of the translators case on it. -/
inductive SOAVal where
  | sStr (s : String)
  | sUserParts (ps : List UserContentPart)
  | sTextParts (ts : List String)
  | sOther
deriving DecidableEq

/-- Dynamic `Content.Value` of a user message
(`StringOrUserRoleContentUnion`): string, part list, nil, a nested
`StringOrArray`, or some other type. -/
inductive ContentVal where
  | vNil
  | vStr (s : String)
  | vUserParts (ps : List UserContentPart)
  | vStringOrArray (w : SOAVal)
  | vOther
deriving DecidableEq

/-- Dynamic `Content.Value` of a system/developer message. -/
inductive SysVal where
  | vNil
  | vStr (s : String)
  | vUserParts (ps : List UserContentPart)
  | vTextParts (ts : List String)
  | vOther
deriving DecidableEq

inductive AsstCType where
  | text
  | refusal
  | other
deriving DecidableEq

/-- One `ChatCompletionAssistantMessageParamContent` struct. -/
structure AsstTypedContent where
  ctype : AsstCType
  text : Option String := none
  refusal : Option String := none
deriving DecidableEq

/-- Dynamic `Content.Value` of an assistant message: a string, a single
typed struct (the GCP-Anthropic switch), a list of typed structs (the
GCP-Gemini switch), nil, or some other type. -/
inductive AsstVal where
  | vNil
  | vStr (s : String)
  | vTyped (c : AsstTypedContent)
  | vTypedList (cs : List AsstTypedContent)
  | vOther
deriving DecidableEq

/-- An assistant tool call.  `args` carries the result of
`json.Unmarshal` on the `Function.Arguments` string into a
`map[string]interface{}`: `none` models arguments that are not a valid
JSON object (the call sites return that unmarshal error). -/
structure ToolCall where
  id : String
  name : String
  args : Option JsonFields

/-- One OpenAI chat message (`ChatCompletionMessageParamUnion`), tagged by
its `Type` role with the `Value` payload of that role. -/
inductive OpenAIMsg where
  | user (content : ContentVal)
  | assistant (content : AsstVal) (toolCalls : List ToolCall)
  | system (content : SysVal)
  | developer (content : SysVal)
  | tool (content : SOAVal) (toolCallId : String)
  | unknownRole (r : String)

/-- An `openai.Tool`; `isFunction` models `Type == openai.ToolTypeFunction`
and `parameters` the dynamic `Function.Parameters` value. -/
structure OpenAITool where
  isFunction : Bool
  name : String
  description : String
  parameters : Option Json

/-- Dynamic `ToolChoice` value: absent, a string, an `openai.ToolChoice`
struct, or some other type. -/
inductive ToolChoiceVal where
  | choiceNil
  | choiceStr (s : String)
  | choiceFn (isFunction : Bool) (name : String)
  | choiceOther

/-- The decoded `openai.ChatCompletionRequest`, restricted to the fields
the embedded translators read.  `stop` models the `[]*string` field
(`none` = nil slice, inner `none` = nil pointer). -/
structure ChatCompletionRequest where
  model : String := ""
  messages : List OpenAIMsg := []
  maxTokens : Option Int := none
  maxCompletionTokens : Option Int := none
  temperature : Option ℚ := none
  topP : Option ℚ := none
  stop : Option (List (Option String)) := none
  stream : Bool := false
  tools : List OpenAITool := []
  toolChoice : ToolChoiceVal := .choiceNil
  parallelToolCalls : Option Bool := none

/-! Section: openai_gcpanthropic.go, OpenAI to GCP-Anthropic translator -/

/-- An `anthropic.ImageBlockParam` source (base64 bytes or a URL). -/
inductive ImageSource where
  | base64Src (mediaType : String) (dataB64 : String)
  | urlSrc (url : String)
deriving DecidableEq

/-- One `ToolResultBlockParamContentUnion`; mirrors the source's reuse of
a single `trb` variable across loop iterations. -/
structure ToolResultBlock where
  ofText : Option String := none
  ofImage : Option ImageSource := none
deriving DecidableEq

/-- Anthropic SDK content block params produced by the translator.
Base64 sources store the re-encoded payload string, as the Go code does. -/
inductive ContentBlock where
  | text (t : String)
  | imageBase64 (mediaType : String) (dataB64 : String)
  | imageURL (url : String)
  | documentBase64 (dataB64 : String)
  | documentURL (url : String)
  | toolUse (id : String) (name : String) (input : JsonFields)
  | toolResult (toolUseId : String) (content : List ToolResultBlock)

/-- An `anthropic.MessageParam` (role is `"user"` or `"assistant"`). -/
structure AMsg where
  role : String
  content : List ContentBlock

/-- Function `validateTemperatureForAnthropic`: rejects a set temperature
strictly greater than 1.0. -/
def validateTemperatureForAnthropic : Option ℚ → Except Err Unit
  | none => .ok ()
  | some t => if t > 1 then .error (.tempNotSupported t) else .ok ()

/-- Function `extractStopSequencesFromPtrSlice`: nil slice gives nil, a
nil element is an error, otherwise the dereferenced strings. -/
def extractStopSequencesFromPtrSlice : Option (List (Option String)) → Except Err (List String)
  | none => .ok []
  | some l =>
    if l.any (fun s => s = none) then .error .nilStopValue
    else .ok (l.filterMap id)

/-- Function `isDataURI` (`strings.HasPrefix(uri, "data:")`). -/
def isDataURI (uri : String) : Bool := List.isPrefixOf "data:".toList uri.toList

/-- Function `isSupportedImageMediaType`. -/
def isSupportedImageMediaType (mediaType : String) : Bool :=
  mediaType = "image/jpeg" ∨ mediaType = "image/png" ∨
  mediaType = "image/gif" ∨ mediaType = "image/webp"

/-- Models `strings.HasSuffix (strings.ToLower url) ".pdf"`. -/
def endsWithPdf (url : String) : Bool :=
  List.isSuffixOf ".pdf".toList url.toLower.toList

/-- Conversion of one user content part inside `openAIToAnthropicContent`
(the body of its loop over `[]ChatCompletionContentPartUserUnionParam`). -/
def anthropicContentOfPart : UserContentPart → Except Err (List ContentBlock)
  | .textPart t => .ok [.text t]
  | .imagePart url =>
    if isDataURI url then
      match parseDataURI url with
      | .error e => .error (.failedParseImage e)
      | .ok (contentType, data) =>
        let base64Data := encodeBase64 data
        if contentType = "application/pdf" then
          .ok [.documentBase64 base64Data]
        else if isSupportedImageMediaType contentType then
          .ok [.imageBase64 contentType base64Data]
        else .error (.invalidImageMediaType contentType)
    else if endsWithPdf url then .ok [.documentURL url]
    else .ok [.imageURL url]
  | .audioPart => .error .audioNotSupported
  | .emptyPart => .ok []

def anthropicContentOfParts : List UserContentPart → Except Err (List ContentBlock)
  | [] => .ok []
  | p :: ps =>
    match anthropicContentOfPart p with
    | .error e => .error e
    | .ok bs =>
      match anthropicContentOfParts ps with
      | .error e => .error e
      | .ok rest => .ok (bs ++ rest)

/-- Function `openAIToAnthropicContent` of the GCP-Anthropic translator:
type switch over the dynamic content value, with the `StringOrArray`
case recursing on the wrapped value. -/
def openAIToAnthropicContent : ContentVal → Except Err (List ContentBlock)
  | .vNil => .ok []
  | .vStr s => if s = "" then .ok [] else .ok [.text s]
  | .vUserParts ps => anthropicContentOfParts ps
  | .vStringOrArray w =>
    match w with
    | .sStr s => if s = "" then .ok [] else .ok [.text s]
    | .sUserParts ps => anthropicContentOfParts ps
    | _ => .error .unsupportedStringOrArray
  | .vOther => .error .unsupportedContentType

/-- Function `extractSystemPromptFromDeveloperMsg` (system messages are
first funnelled through `systemMsgToDeveloperMsg`, which only relabels the
role): string content verbatim, text parts concatenated, anything else
(nil, text-param lists, other types) the empty string. -/
def extractSystemPromptFromDeveloperMsg : SysVal → String
  | .vStr s => s
  | .vUserParts ps =>
      String.join (ps.map (fun p => match p with | .textPart t => t | _ => ""))
  | _ => ""

/-- Function `anthropicRoleToOpenAIRole`. -/
def anthropicRoleToOpenAIRole (role : String) : Except Err String :=
  if role = "assistant" then .ok "assistant"
  else if role = "user" then .ok "user"
  else .error (.invalidAnthropicRole role)

/-- Function `openAIMessageToAnthropicMessageRoleAssistant`: text/refusal
content becomes text blocks (unmatched dynamic types contribute nothing),
then each tool call becomes a `tool_use` block; invalid tool-call
arguments are an unmarshal error. -/
def openAIMessageToAnthropicMessageRoleAssistant
    (content : AsstVal) (toolCalls : List ToolCall) : Except Err AMsg :=
  let contentRes : Except Err (List ContentBlock) :=
    match content with
    | .vStr s => if s = "" then .ok [] else .ok [.text s]
    | .vTyped c =>
      match c.ctype with
      | .refusal => .ok (match c.refusal with | some r => [.text r] | none => [])
      | .text => .ok (match c.text with | some t => [.text t] | none => [])
      | .other => .error .assistantContentTypeNotSupported
    | _ => .ok []
  match contentRes with
  | .error e => .error e
  | .ok blocks =>
    let rec addCalls : List ToolCall → Except Err (List ContentBlock)
      | [] => .ok []
      | tc :: tcs =>
        match tc.args with
        | none => .error .toolArgsUnmarshal
        | some input =>
          match addCalls tcs with
          | .error e => .error e
          | .ok rest => .ok (.toolUse tc.id tc.name input :: rest)
    match addCalls toolCalls with
    | .error e => .error e
    | .ok callBlocks => .ok ⟨"assistant", blocks ++ callBlocks⟩

/-- Tool-result content assembly inside the `ChatMessageRoleTool` case:
the single `trb` variable persists across iterations, so later blocks
inherit earlier fields. -/
def toolResultContentOf (blocks : List ContentBlock) : List ToolResultBlock :=
  (blocks.foldl
    (fun (st : ToolResultBlock × List ToolResultBlock) c =>
      let trb := st.1
      let trb' :=
        match c with
        | .text t => { trb with ofText := some t }
        | .imageBase64 mt d => { trb with ofImage := some (.base64Src mt d) }
        | .imageURL u => { trb with ofImage := some (.urlSrc u) }
        | _ => trb
      (trb', st.2 ++ [trb']))
    (⟨none, none⟩, [])).2

/-- Function `openAIToAnthropicMessages`: converts the message list,
accumulating system text blocks separately. -/
def openAIToAnthropicMessages : List OpenAIMsg → Except Err (List AMsg × List String)
  | [] => .ok ([], [])
  | msg :: msgs =>
    let step : Except Err (List AMsg × List String) :=
      match msg with
      | .system c => .ok ([], [extractSystemPromptFromDeveloperMsg c])
      | .developer c => .ok ([], [extractSystemPromptFromDeveloperMsg c])
      | .user c =>
        match openAIToAnthropicContent c with
        | .error e => .error e
        | .ok content => .ok ([⟨"user", content⟩], [])
      | .assistant c toolCalls =>
        match openAIMessageToAnthropicMessageRoleAssistant c toolCalls with
        | .error e => .error e
        | .ok m => .ok ([m], [])
      | .tool c toolCallId =>
        match openAIToAnthropicContent (.vStringOrArray c) with
        | .error e => .error e
        | .ok content =>
          .ok ([⟨"user", [.toolResult toolCallId (toolResultContentOf content)]⟩], [])
      | .unknownRole r => .error (.unsupportedRole r)
    match step with
    | .error e => .error e
    | .ok (ms, sys) =>
      match openAIToAnthropicMessages msgs with
      | .error e => .error e
      | .ok (ms', sys') => .ok (ms ++ ms', sys ++ sys')

/-- An Anthropic tool definition produced by the translator. -/
structure AnthTool where
  name : String
  description : String
  inputSchema : Option JsonFields

/-- An `anthropic.ToolChoiceUnionParam`; `Option.none` at use sites models
the zero union value (omitted from the marshalled JSON). -/
inductive AnthToolChoice where
  | autoChoice (disable : Bool)
  | anyChoice (disable : Bool)
  | noneChoice
  | toolChoice (name : String) (disable : Bool)

/-- Function `translateOpenAItoAnthropicTools`.  With no tools everything
is zero; otherwise non-function tools are skipped, tool parameters must be
JSON objects, and the tool choice is mapped with
`disable_parallel_tool_use` as the negation of `parallel_tool_calls`. -/
def translateOpenAItoAnthropicTools
    (openAITools : List OpenAITool) (openAIToolChoice : ToolChoiceVal)
    (parallelToolCalls : Option Bool) :
    Except Err (List AnthTool × Option AnthToolChoice) :=
  if openAITools.isEmpty then .ok ([], none)
  else
    let rec convTools : List OpenAITool → Except Err (List AnthTool)
      | [] => .ok []
      | t :: ts =>
        if ¬ t.isFunction then convTools ts
        else
          match t.parameters with
          | none =>
            (convTools ts).map (fun rest => ⟨t.name, t.description, none⟩ :: rest)
          | some (.jobj o) =>
            (convTools ts).map (fun rest => ⟨t.name, t.description, some o⟩ :: rest)
          | some _ => .error (.toolParamsNotObject t.name)
    match convTools openAITools with
    | .error e => .error e
    | .ok tools =>
      let disable : Bool := match parallelToolCalls with
        | none => false
        | some b => ¬ b
      match openAIToolChoice with
      | .choiceNil => .ok (tools, none)
      | .choiceStr s =>
        if s = "auto" then .ok (tools, some (.autoChoice disable))
        else if s = "required" ∨ s = "any" then .ok (tools, some (.anyChoice disable))
        else if s = "none" then .ok (tools, some .noneChoice)
        else if s = "function" then .ok (tools, some (.toolChoice s disable))
        else .error (.invalidToolChoice s)
      | .choiceFn isFn name =>
        if isFn ∧ name ≠ "" then .ok (tools, some (.toolChoice name disable))
        else .ok (tools, none)
      | .choiceOther => .ok (tools, none)

/-- The `anthropic.MessageNewParams` the translator fills in.  Its
`Model` field is never assigned by `buildAnthropicParams`, so (being
`omitzero`) it never reaches the marshalled JSON. -/
structure MessageNewParams where
  messages : List AMsg
  maxTokens : Int
  system : List String
  tools : List AnthTool
  toolChoice : Option AnthToolChoice
  temperature : Option ℚ := none
  topP : Option ℚ := none
  stopSequences : List String := []

/-- Function `buildAnthropicParams`: defaults `max_tokens` to 100 with
`max_completion_tokens` taking precedence, converts messages and tools,
validates the temperature, and collects stop sequences. -/
def buildAnthropicParams (req : ChatCompletionRequest) : Except Err MessageNewParams :=
  let maxTokens : Int :=
    match req.maxCompletionTokens with
    | some c => c
    | none => match req.maxTokens with
      | some m => m
      | none => 100
  match openAIToAnthropicMessages req.messages with
  | .error e => .error e
  | .ok (messages, systemBlocks) =>
    match translateOpenAItoAnthropicTools req.tools req.toolChoice req.parallelToolCalls with
    | .error e => .error e
    | .ok (tools, toolChoice) =>
      let params : MessageNewParams :=
        { messages := messages, maxTokens := maxTokens, system := systemBlocks,
          tools := tools, toolChoice := toolChoice }
      match req.temperature with
      | some t =>
        (match validateTemperatureForAnthropic (some t) with
         | .error e => .error e
         | .ok _ =>
           let params := { params with temperature := some t }
           let params := match req.topP with
             | some p => { params with topP := some p }
             | none => params
           match extractStopSequencesFromPtrSlice req.stop with
           | .error e => .error e
           | .ok stopSequences =>
             if stopSequences ≠ [] then .ok { params with stopSequences := stopSequences }
             else .ok params)
      | none =>
        let params := match req.topP with
          | some p => { params with topP := some p }
          | none => params
        match extractStopSequencesFromPtrSlice req.stop with
        | .error e => .error e
        | .ok stopSequences =>
          if stopSequences ≠ [] then .ok { params with stopSequences := stopSequences }
          else .ok params

/-! Section: marshalling of the Anthropic request (anthropic-sdk-go
`apijson` encoding of `MessageNewParams`; `omitzero` fields are omitted
when unset, and `Model` is never set by this translator). -/

def marshalToolResultBlock (b : ToolResultBlock) : Json :=
  match b.ofText, b.ofImage with
  | some t, _ => .jobj (.cons "type" (.jstr "text") (.cons "text" (.jstr t) .nil))
  | none, some (.base64Src mt d) =>
      .jobj (.cons "type" (.jstr "image")
        (.cons "source" (.jobj (.cons "type" (.jstr "base64")
          (.cons "media_type" (.jstr mt) (.cons "data" (.jstr d) .nil)))) .nil))
  | none, some (.urlSrc u) =>
      .jobj (.cons "type" (.jstr "image")
        (.cons "source" (.jobj (.cons "type" (.jstr "url")
          (.cons "url" (.jstr u) .nil))) .nil))
  | none, none => .jobj .nil

def marshalContentBlock : ContentBlock → Json
  | .text t => .jobj (.cons "type" (.jstr "text") (.cons "text" (.jstr t) .nil))
  | .imageBase64 mt d =>
      .jobj (.cons "type" (.jstr "image")
        (.cons "source" (.jobj (.cons "type" (.jstr "base64")
          (.cons "media_type" (.jstr mt) (.cons "data" (.jstr d) .nil)))) .nil))
  | .imageURL u =>
      .jobj (.cons "type" (.jstr "image")
        (.cons "source" (.jobj (.cons "type" (.jstr "url")
          (.cons "url" (.jstr u) .nil))) .nil))
  | .documentBase64 d =>
      .jobj (.cons "type" (.jstr "document")
        (.cons "source" (.jobj (.cons "type" (.jstr "base64")
          (.cons "media_type" (.jstr "application/pdf")
            (.cons "data" (.jstr d) .nil)))) .nil))
  | .documentURL u =>
      .jobj (.cons "type" (.jstr "document")
        (.cons "source" (.jobj (.cons "type" (.jstr "url")
          (.cons "url" (.jstr u) .nil))) .nil))
  | .toolUse id name input =>
      .jobj (.cons "type" (.jstr "tool_use") (.cons "id" (.jstr id)
        (.cons "name" (.jstr name) (.cons "input" (.jobj input) .nil))))
  | .toolResult toolUseId content =>
      .jobj (.cons "type" (.jstr "tool_result")
        (.cons "tool_use_id" (.jstr toolUseId)
          (.cons "content" (.jarr (JsonList.ofList (content.map marshalToolResultBlock))) .nil)))


def marshalAMsg (m : AMsg) : Json :=
  .jobj (.cons "role" (.jstr m.role)
    (.cons "content" (.jarr (JsonList.ofList (m.content.map marshalContentBlock))) .nil))

def marshalTextBlock (t : String) : Json :=
  .jobj (.cons "type" (.jstr "text") (.cons "text" (.jstr t) .nil))

def marshalAnthTool (t : AnthTool) : Json :=
  .jobj (.cons "name" (.jstr t.name)
    (.cons "description" (.jstr t.description)
      (.cons "input_schema"
        (.jobj (.cons "type" (.jstr "object")
          (.cons "properties" (match t.inputSchema with
            | some o => .jobj o
            | none => .null) .nil))) .nil)))

def marshalAnthToolChoice : AnthToolChoice → Json
  | .autoChoice d =>
      .jobj (.cons "type" (.jstr "auto")
        (.cons "disable_parallel_tool_use" (.jbool d) .nil))
  | .anyChoice d =>
      .jobj (.cons "type" (.jstr "any")
        (.cons "disable_parallel_tool_use" (.jbool d) .nil))
  | .noneChoice => .jobj (.cons "type" (.jstr "none") .nil)
  | .toolChoice name d =>
      .jobj (.cons "type" (.jstr "tool") (.cons "name" (.jstr name)
        (.cons "disable_parallel_tool_use" (.jbool d) .nil)))

/-- Field list of the marshalled `MessageNewParams` in SDK field order;
optional (`omitzero`) fields appear only when set.  No branch ever emits a
`model` key. -/
def paramFields (p : MessageNewParams) : List (String × Json) :=
  [("max_tokens", .jint p.maxTokens),
   ("messages", .jarr (JsonList.ofList (p.messages.map marshalAMsg)))]
  ++ (if p.stopSequences.isEmpty then []
      else [("stop_sequences", .jarr (JsonList.ofList (p.stopSequences.map .jstr)))])
  ++ (if p.system.isEmpty then []
      else [("system", .jarr (JsonList.ofList (p.system.map marshalTextBlock)))])
  ++ (match p.temperature with
      | some t => [("temperature", .jrat t)]
      | none => [])
  ++ (match p.toolChoice with
      | some tc => [("tool_choice", marshalAnthToolChoice tc)]
      | none => [])
  ++ (if p.tools.isEmpty then []
      else [("tools", .jarr (JsonList.ofList (p.tools.map marshalAnthTool)))])
  ++ (match p.topP with
      | some q => [("top_p", .jrat q)]
      | none => [])

/-- Models `json.Marshal(params)`. -/
def marshalParams (p : MessageNewParams) : Json :=
  .jobj (JsonFields.ofList (paramFields p))

/-! Section: RequestBody of the GCP-Anthropic translator -/

/-- The JSON body `RequestBody` emits on success: the marshalled params
with `anthropic_version` set by `sjson.SetBytes`. -/
def anthropicRequestBodyJson (p : MessageNewParams) : Json :=
  (marshalParams p).setKey "anthropic_version" (.jstr "vertex-2023-10-16")

/-- Method `RequestBody` of `openAIToAnthropicTranslatorV1ChatCompletion`:
builds the params, rejects streaming, sets the `:path` suffix and the
version key, and returns the mutations of `buildGCPRequestMutations`. -/
def anthropicRequestBody (req : ChatCompletionRequest) :
    Except Err (HeaderMut × String) :=
  match buildAnthropicParams req with
  | .error e => .error e
  | .ok params =>
    if req.stream then .error .streamingNotSupported
    else
      let pathSuffix := buildGCPModelPathSuffix "anthropic" req.model "rawPredict"
      let body := (anthropicRequestBodyJson params).render
      .ok (buildGCPRequestMutations pathSuffix body)

/-! Section: response side of the GCP-Anthropic translator -/

/-- Anthropic usage counts as decoded from the backend response. -/
structure AnthropicUsage where
  inputTokens : Int := 0
  outputTokens : Int := 0
deriving DecidableEq

/-- One decoded `anthropic.ContentBlockUnion` of a backend response. -/
structure RespContentBlock where
  btype : String := ""
  text : String := ""
  id : String := ""
  name : String := ""
  input : JsonFields := .nil

/-- A decoded `anthropic.Message`. -/
structure AnthropicMessage where
  content : List RespContentBlock := []
  role : String := ""
  stopReason : String := ""
  usage : AnthropicUsage := {}

/-- A decoded `anthropic.ErrorResponse`. -/
structure AnthropicErrorResponse where
  etype : String := ""
  message : String := ""

/-- The response-body bytes together with what Go's `json.Unmarshal`
yields for them at the two decode sites (`none` models a decode error).
This models the external JSON decoder as an input. -/
structure RespBody where
  raw : String := ""
  asErrorResponse : Option AnthropicErrorResponse := none
  asMessage : Option AnthropicMessage := none

/-- Models the Go `uint32(...)` conversions on token counts. -/
def u32 (n : Int) : Int := n % (2 ^ 32)

/-- The translator's `LLMTokenUsage` triple. -/
structure LLMTokenUsage where
  inputTokens : Int := 0
  outputTokens : Int := 0
  totalTokens : Int := 0
deriving DecidableEq

/-- Function `anthropicToOpenAIFinishReason`: total on the five known
stop reasons, a hard error on anything else. -/
def anthropicToOpenAIFinishReason (stopReason : String) : Except Err String :=
  if stopReason = "end_turn" ∨ stopReason = "stop_sequence" ∨ stopReason = "pause_turn" then
    .ok "stop"
  else if stopReason = "max_tokens" then .ok "length"
  else if stopReason = "tool_use" then .ok "tool_calls"
  else if stopReason = "refusal" then .ok "content_filter"
  else .error (.invalidStopReason stopReason)

/-- An OpenAI tool call of the translated response. -/
structure ToolCallOut where
  id : String
  name : String
  argumentsJson : String

/-- Function `anthropicToolUseToOpenAICalls` (the `json.Marshal` of the
already-decoded input map cannot fail in the model). -/
def anthropicToolUseToOpenAICalls (block : RespContentBlock) : List ToolCallOut :=
  if block.btype ≠ "tool_use" then []
  else [⟨block.id, block.name, (Json.jobj block.input).render⟩]

def marshalToolCallOut (c : ToolCallOut) : Json :=
  .jobj (.cons "id" (.jstr c.id) (.cons "type" (.jstr "function")
    (.cons "function" (.jobj (.cons "name" (.jstr c.name)
      (.cons "arguments" (.jstr c.argumentsJson) .nil))) .nil)))

/-- The translated OpenAI chat-completion response (fields the translator
assigns). -/
structure ChatCompletionResponse where
  object : String
  role : String := ""
  content : Option String := none
  toolCalls : List ToolCallOut := []
  finishReason : String := ""
  promptTokens : Int := 0
  completionTokens : Int := 0
  totalTokens : Int := 0

/-- Models `json.Marshal` of the translated response struct. -/
def marshalChatResponse (r : ChatCompletionResponse) : Json :=
  .jobj (.cons "object" (.jstr r.object)
    (.cons "choices" (.jarr (.cons
      (.jobj (.cons "index" (.jint 0)
        (.cons "message" (.jobj (.cons "role" (.jstr r.role)
          (.cons "content" (match r.content with
            | some c => .jstr c
            | none => .null)
          (.cons "tool_calls" (.jarr (JsonList.ofList (r.toolCalls.map marshalToolCallOut))) .nil))))
        (.cons "finish_reason" (.jstr r.finishReason) .nil)))) .nil))
    (.cons "usage" (.jobj (.cons "prompt_tokens" (.jint r.promptTokens)
      (.cons "completion_tokens" (.jint r.completionTokens)
        (.cons "total_tokens" (.jint r.totalTokens) .nil)))) .nil)))

/-- Method `ResponseError` of the GCP-Anthropic translator: with a JSON
content type the decoded backend error is wrapped, otherwise the raw body
becomes a `GCPBackendError`; the mutations carry the marshalled OpenAI
error envelope and its content length. -/
def anthropicResponseError (respHeaders : List (String × String)) (body : RespBody) :
    Except Err (HeaderMut × String) :=
  let statusCode := (lookupHeader respHeaders ":status").getD ""
  let openaiErrorRes : Except Err (String × String) :=
    match lookupHeader respHeaders "content-type" with
    | some v =>
      if strContains v "application/json" then
        match body.asErrorResponse with
        | none => .error .jsonErrorDecode
        | some g => .ok (g.etype, g.message)
      else .ok ("GCPBackendError", body.raw)
    | none => .ok ("GCPBackendError", body.raw)
  match openaiErrorRes with
  | .error e => .error e
  | .ok (etype, message) =>
    let bodyOut := (Json.jobj (.cons "type" (.jstr "error")
      (.cons "error" (.jobj (.cons "type" (.jstr etype)
        (.cons "message" (.jstr message)
          (.cons "code" (.jstr statusCode) .nil)))) .nil))).render
    .ok (setContentLength bodyOut, bodyOut)

/-- Content/tool-call extraction loop of `ResponseBody`: `tool_use`
blocks with a non-empty id contribute tool calls; the first non-empty
text block becomes the message content. -/
def extractChoiceContent (blocks : List RespContentBlock) :
    Option String × List ToolCallOut :=
  blocks.foldl
    (fun (st : Option String × List ToolCallOut) output =>
      if output.btype = "tool_use" ∧ output.id ≠ "" then
        (st.1, st.2 ++ anthropicToolUseToOpenAICalls output)
      else if output.btype = "text" ∧ output.text ≠ "" then
        (match st.1 with
         | none => (some output.text, st.2)
         | some c => (some c, st.2))
      else st)
    (none, [])

/-- Success path of `ResponseBody` (after the status-code guard):
decode, tally usage, map stop reason and role, extract content and tool
calls, marshal, and set the content length. -/
def anthropicResponseBodyMain (body : RespBody) :
    Except Err (HeaderMut × String × LLMTokenUsage) :=
  match body.asMessage with
  | none => .error .unmarshalBody
  | some m =>
    let tokenUsage : LLMTokenUsage :=
      { inputTokens := u32 m.usage.inputTokens,
        outputTokens := u32 m.usage.outputTokens,
        totalTokens := u32 (m.usage.inputTokens + m.usage.outputTokens) }
    match anthropicToOpenAIFinishReason m.stopReason with
    | .error e => .error e
    | .ok finishReason =>
      match anthropicRoleToOpenAIRole m.role with
      | .error e => .error e
      | .ok role =>
        let (content, toolCalls) := extractChoiceContent m.content
        let resp : ChatCompletionResponse :=
          { object := "chat.completion", role := role, content := content,
            toolCalls := toolCalls, finishReason := finishReason,
            promptTokens := m.usage.inputTokens,
            completionTokens := m.usage.outputTokens,
            totalTokens := m.usage.inputTokens + m.usage.outputTokens }
        let bodyOut := (marshalChatResponse resp).render
        .ok (setContentLength bodyOut, bodyOut, tokenUsage)

/-- Method `ResponseBody` of the GCP-Anthropic translator: a present
`:status` header is parsed (a parse failure is an error with nil
mutations); non-2xx statuses are delegated to `ResponseError` with zero
token usage. -/
def anthropicResponseBody (respHeaders : List (String × String)) (body : RespBody)
    (_endOfStream : Bool) : Except Err (HeaderMut × String × LLMTokenUsage) :=
  match lookupHeader respHeaders ":status" with
  | some statusStr =>
    match goAtoi statusStr with
    | some status =>
      if ¬ isGoodStatusCode status then
        match anthropicResponseError respHeaders body with
        | .ok (hm, bm) => .ok (hm, bm, {})
        | .error e => .error e
      else anthropicResponseBodyMain body
    | none => .error (.statusParse statusStr)
  | none => anthropicResponseBodyMain body

/-! Section: the earlier GCP-Anthropic translator iteration
(`openAIToGCPAnthropicTranslatorV1ChatCompletion`, lines 286-335 of
openai_gcpanthropic.go), whose `ResponseBody` returns a body mutation
with a nil header mutation. -/

/-- A decoded `anthropicResponse` of the earlier iteration: content parts
as `(type, text)` pairs plus the fields the code reads. -/
structure AnthropicResponseV1 where
  content : List (String × String) := []
  role : String := ""
  stopReason : String := ""
  usage : AnthropicUsage := {}

/-- Stop-reason mapping of the earlier iteration (total; unknown reasons
pass through). -/
def anthropicToOpenAIFinishReasonV1 (reason : String) : String :=
  if reason = "end_turn" ∨ reason = "stop_sequence" then "stop"
  else if reason = "max_tokens" then "length"
  else if reason = "tool_use" then "tool_calls"
  else reason

/-- Method `ResponseBody` of the earlier iteration, on a decoded
response: concatenates the text parts, builds the OpenAI response, and
returns a nil header mutation next to the body mutation (`tokenUsage`
is never assigned, so the zero value is returned). -/
def gcpAnthropicResponseBodyV1 (resp : AnthropicResponseV1) :
    Option HeaderMut × Option String × LLMTokenUsage :=
  let content := String.join (resp.content.map
    (fun p => if p.1 = "text" then p.2 else ""))
  let openaiResp : ChatCompletionResponse :=
    { object := "", role := resp.role, content := some content,
      finishReason := anthropicToOpenAIFinishReasonV1 resp.stopReason,
      promptTokens := resp.usage.inputTokens,
      completionTokens := resp.usage.outputTokens,
      totalTokens := resp.usage.inputTokens + resp.usage.outputTokens }
  let respBody := (marshalChatResponse openaiResp).render
  (none, some respBody, {})

/-! Section: gemini_helper.go, OpenAI to GCP-Gemini message conversion -/

/-- A `genai.Part` as built by the conversion helpers. -/
inductive GPart where
  | textG (t : String)
  | inlineData (bytes : List Nat) (mime : String)
  | fileData (uri : String) (mime : String)
  | functionCall (name : String) (args : JsonFields)
  | functionResponse (name : String) (output : String)

/-- A `genai.Content` (`role` is `"user"` or `"model"`). -/
structure GContent where
  role : String
  parts : List GPart

/-- Scheme test of `url.Parse(imgURL).Scheme == "data"`: a valid scheme
prefix before the first colon, lower-cased, equal to `data` (parse
failures of `url.Parse` on exotic control characters are not modelled). -/
def schemeIsData (url : String) : Bool :=
  match url.toList.splitOn ':' with
  | pre :: _ :: _ =>
      ¬ pre.isEmpty ∧
      (pre.headD 'a').isAlpha ∧
      pre.all (fun c => c.isAlphanum ∨ c = '+' ∨ c = '-' ∨ c = '.') ∧
      (String.mk pre).toLower = "data"
  | _ => false

/-- Models `path.Ext`: the suffix from the final dot of the final
slash-separated element (empty when there is none). -/
def pathExt (s : String) : String :=
  let lastSeg := (s.toList.splitOn '/').getLastD []
  match (lastSeg.reverse.splitOn '.') with
  | [_] => ""
  | revExt :: _ :: _ => String.mk ('.' :: revExt.reverse)
  | [] => ""

/-- Models `mime.TypeByExtension` for the extensions exercised here; an
unknown extension yields `""` (so the caller's `image/jpeg` default
applies). -/
def mimeTypeByExtension (ext : String) : String :=
  if ext = ".jpg" ∨ ext = ".jpeg" then "image/jpeg"
  else if ext = ".png" then "image/png"
  else if ext = ".gif" then "image/gif"
  else if ext = ".webp" then "image/webp"
  else ""

/-- Function `fromDeveloperMsg` of `gemini_helper.go` (system messages
reach it through `systemMsgToDeveloperMsg`, which only relabels the
role): text content becomes text parts; anything else is an error. -/
def fromDeveloperMsg : SysVal → Except Err (List GPart)
  | .vStr s => .ok (if s = "" then [] else [.textG s])
  | .vTextParts ts => .ok ((ts.filter (fun t => t ≠ "")).map .textG)
  | _ => .error .unsupportedDeveloperContent

/-- Body of the part loop of `fromUserMsg`. -/
def geminiPartOf : UserContentPart → Except Err (List GPart)
  | .textPart t => .ok [.textG t]
  | .imagePart url =>
    if url = "" then .ok []
    else if schemeIsData url then
      match parseDataURI url with
      | .error e => .error (.failedParseDataURI e)
      | .ok (mimeType, bytes) => .ok [.inlineData bytes mimeType]
    else
      let mt := mimeTypeByExtension (pathExt url)
      .ok [.fileData url (if mt = "" then "image/jpeg" else mt)]
  | .audioPart => .error .geminiAudioNotSupported
  | .emptyPart => .ok []

def geminiPartsOf : List UserContentPart → Except Err (List GPart)
  | [] => .ok []
  | p :: ps =>
    match geminiPartOf p with
    | .error e => .error e
    | .ok xs =>
      match geminiPartsOf ps with
      | .error e => .error e
      | .ok rest => .ok (xs ++ rest)

/-- Function `fromUserMsg` of `gemini_helper.go`. -/
def fromUserMsg : ContentVal → Except Err (List GPart)
  | .vStr s => .ok (if s = "" then [] else [.textG s])
  | .vUserParts ps => geminiPartsOf ps
  | _ => .error .unsupportedUserContent

/-- Function `fromToolMsg` of `gemini_helper.go`: the tool-call id is
resolved against the known calls (a missing id gives the empty name) and
the textual content becomes a function-response part. -/
def fromToolMsg (content : SOAVal) (toolCallId : String)
    (knownToolCalls : List (String × String)) : Except Err GPart :=
  let name := ((knownToolCalls.find? (fun p => p.1 = toolCallId)).map (fun p => p.2)).getD ""
  match content with
  | .sStr s => .ok (.functionResponse name s)
  | .sTextParts ts => .ok (.functionResponse name (String.join (ts.map id)))
  | _ => .error .unsupportedToolContent

/-- Function `fromAssistantMsg` of `gemini_helper.go`: function-call
parts from the tool calls (recording them as known calls), then text
parts from the content. -/
def fromAssistantMsg (content : AsstVal) (toolCalls : List ToolCall) :
    Except Err (List GPart × List (String × String)) :=
  let rec convCalls : List ToolCall → Except Err (List GPart × List (String × String))
    | [] => .ok ([], [])
    | tc :: tcs =>
      match tc.args with
      | none => .error .geminiToolArgsUnmarshal
      | some args =>
        match convCalls tcs with
        | .error e => .error e
        | .ok (ps, known) => .ok (.functionCall tc.name args :: ps, (tc.id, tc.name) :: known)
  match convCalls toolCalls with
  | .error e => .error e
  | .ok (callParts, known) =>
    let contentRes : Except Err (List GPart) :=
      match content with
      | .vStr s => .ok (if s = "" then [] else [.textG s])
      | .vTypedList cs =>
        let rec convTyped : List AsstTypedContent → Except Err (List GPart)
          | [] => .ok []
          | c :: rest =>
            match c.ctype with
            | .text =>
              (convTyped rest).map (fun xs =>
                (match c.text with
                 | some t => if t = "" then [] else [GPart.textG t]
                 | none => []) ++ xs)
            | .refusal => convTyped rest
            | .other => .error .unsupportedAssistantContent
        convTyped cs
      | .vNil => .ok []
      | _ => .error .unsupportedAssistantContent
    match contentRes with
    | .error e => .error e
    | .ok textParts => .ok (callParts ++ textParts, known)

/-- Loop of `toGeminiContents`: `cs` are the emitted contents, `sys` the
system-instruction parts, `known` the known tool calls, and `ps` the
user/tool parts accumulated since the last flush.  Accumulated parts are
flushed as one user content before each assistant message and once at the
end. -/
def toGeminiContentsAux : List OpenAIMsg → List GContent → Option (List GPart) →
    List (String × String) → List GPart → Except Err (List GContent × Option (List GPart))
  | [], cs, sys, _, ps =>
      .ok ((if ps.isEmpty then cs else cs ++ [⟨"user", ps⟩]), sys)
  | msg :: msgs, cs, sys, known, ps =>
    match msg with
    | .developer c =>
      match fromDeveloperMsg c with
      | .error e => .error (.geminiWrap "developer" e)
      | .ok inst =>
        if inst.isEmpty then toGeminiContentsAux msgs cs sys known ps
        else toGeminiContentsAux msgs cs (some ((sys.getD []) ++ inst)) known ps
    | .system c =>
      match fromDeveloperMsg c with
      | .error e => .error (.geminiWrap "developer" e)
      | .ok inst =>
        if inst.isEmpty then toGeminiContentsAux msgs cs sys known ps
        else toGeminiContentsAux msgs cs (some ((sys.getD []) ++ inst)) known ps
    | .user c =>
      match fromUserMsg c with
      | .error e => .error (.geminiWrap "user" e)
      | .ok parts => toGeminiContentsAux msgs cs sys known (ps ++ parts)
    | .tool c toolCallId =>
      match fromToolMsg c toolCallId known with
      | .error e => .error (.geminiWrap "tool" e)
      | .ok part => toGeminiContentsAux msgs cs sys known (ps ++ [part])
    | .assistant c toolCalls =>
      match fromAssistantMsg c toolCalls with
      | .error e => .error (.geminiWrap "assistant" e)
      | .ok (assistantParts, newCalls) =>
        let flushed := if ps.isEmpty then cs else cs ++ [⟨"user", ps⟩]
        toGeminiContentsAux msgs (flushed ++ [⟨"model", assistantParts⟩]) sys
          (newCalls ++ known) []
    | .unknownRole r => .error (.invalidGeminiRole r)

/-- Function `toGeminiContents` of `gemini_helper.go`. -/
def toGeminiContents (messages : List OpenAIMsg) :
    Except Err (List GContent × Option (List GPart)) :=
  toGeminiContentsAux messages [] none [] []

/-! Section: gcp_oidc_token_rotator.go, token rotation -/

/-- A token together with its expiry (epoch seconds stand in for
`time.Time`). -/
structure TokenExpiry where
  token : String
  expiresAt : Int
deriving DecidableEq

/-- Result of `LookupSecret` for the backing secret. -/
inductive LookupRes where
  | found
  | notFound
  | lookupFailed (e : String)

/-- The environment of one `Rotate` call: results of the external calls
it makes, in order (OIDC provider, STS exchange, impersonation) plus the
Kubernetes secret operations. -/
structure RotateEnv where
  oidc : Except String TokenExpiry
  sts : Except String String
  impersonated : Except String TokenExpiry
  secret : LookupRes
  createErr : Option String := none
  updateErr : Option String := none

/-- Outcome of `Rotate`: a normal return (expiry or error), or process
termination via `log.Fatalf`. -/
inductive RotateOutcome where
  | rotated (expiresAt : Int)
  | failed (e : String)
  | fatalExit (msg : String)
deriving DecidableEq

/-- Method `Rotate` of `gcpOIDCTokenRotator`, with the writes actually
persisted to the secret returned alongside the outcome.  An OIDC failure
returns the error; failures of the STS exchange or the impersonation hit
`log.Fatalf`, which terminates the process. -/
def rotate (env : RotateEnv) : RotateOutcome × List TokenExpiry :=
  match env.oidc with
  | .error e => (.failed e, [])
  | .ok _ =>
    match env.sts with
    | .error e => (.fatalExit ("Error exchanging JWT for STS token: " ++ e), [])
    | .ok _stsToken =>
      match env.impersonated with
      | .error e => (.fatalExit ("Error exchanging STS token for GCP access token: " ++ e), [])
      | .ok gcpTokenExpiry =>
        match env.secret with
        | .notFound =>
          (match env.createErr with
           | some e => (.failed e, [])
           | none => (.rotated gcpTokenExpiry.expiresAt, [gcpTokenExpiry]))
        | .lookupFailed e => (.failed e, [])
        | .found =>
          match env.updateErr with
          | some e => (.failed e, [])
          | none => (.rotated gcpTokenExpiry.expiresAt, [gcpTokenExpiry])

/-! Section: claim-side vocabulary.

The next definitions do not embed source code; they spell out terms the
claims use (maximal runs of user/tool messages, adjacent user contents)
so that the claims can be stated and, where they fail, refuted. -/

/-- Membership of a message in a user/tool run, as the grouping claim
words it. -/
def isUserOrTool : OpenAIMsg → Bool
  | .user _ => true
  | .tool _ _ => true
  | _ => false

/-- Number of maximal runs of consecutive user/tool messages (claim-side
definition following the claim's wording; the flag records whether the
previous message was part of a run). -/
def countMaximalRunsFrom : Bool → List OpenAIMsg → Nat
  | _, [] => 0
  | prev, m :: ms =>
    if isUserOrTool m then
      (if prev then 0 else 1) + countMaximalRunsFrom true ms
    else countMaximalRunsFrom false ms

def countMaximalRuns (msgs : List OpenAIMsg) : Nat :=
  countMaximalRunsFrom false msgs

/-- Number of user-role contents in a converted content list. -/
def countUserContents (cs : List GContent) : Nat :=
  (cs.filter (fun c => c.role = "user")).length

/-- No two adjacent contents of the output are both user-role. -/
def noAdjacentUserContents (cs : List GContent) : Prop :=
  List.Chain' (fun a b => a.role = "user" → b.role ≠ "user") cs

/-- The last emitted content (if any) is not user-role; the loop
invariant of the grouping proof. -/
def lastNotUser (cs : List GContent) : Prop :=
  ∀ c ∈ cs.getLast?, c.role ≠ "user"

/-! Section: concrete inputs used by the claim theorems and witnesses. -/

/-- The rational 3/2 in normal form (kernel-reducible). -/
def threeHalves : ℚ := ⟨3, 2, by decide, by decide⟩

/-- The rational 1/2 in normal form (kernel-reducible). -/
def oneHalf : ℚ := ⟨1, 2, by decide, by decide⟩

/-- A benign chat request: one user message, no limits set. -/
def exSimpleReq : ChatCompletionRequest :=
  { model := "claude-3-5-haiku", messages := [.user (.vStr "hi")] }

/-- The params `buildAnthropicParams` computes for `exSimpleReq`. -/
def exSimpleParams : MessageNewParams :=
  { messages := [⟨"user", [.text "hi"]⟩], maxTokens := 100, system := [],
    tools := [], toolChoice := none }

/-- The body `RequestBody` emits for `exSimpleReq`. -/
def exSimpleBody : String := (anthropicRequestBodyJson exSimpleParams).render

/-- A decoded Anthropic response for the earlier translator iteration. -/
def exV1Resp : AnthropicResponseV1 :=
  { content := [("text", "Hello from Claude!")], role := "assistant",
    stopReason := "end_turn", usage := { inputTokens := 7, outputTokens := 4 } }

/-- A rotation environment whose STS exchange fails. -/
def exRotateEnvSTS : RotateEnv :=
  { oidc := .ok ⟨"signed-jwt", 1000⟩, sts := .error "connection refused",
    impersonated := .ok ⟨"gcp-token", 2000⟩, secret := .found }

/-- A rotation environment whose OIDC token fetch fails. -/
def exRotateEnvOIDC : RotateEnv :=
  { oidc := .error "oidc provider unavailable", sts := .ok "sts-token",
    impersonated := .ok ⟨"gcp-token", 2000⟩, secret := .found }

/-- A request with temperature 1.5 whose message conversion fails first
(audio content). -/
def exC3Req : ChatCompletionRequest :=
  { model := "claude-3-5-haiku", temperature := some threeHalves,
    messages := [.user (.vUserParts [.audioPart])] }

/-- A request with temperature 1.5 and otherwise translatable content. -/
def exHotReq : ChatCompletionRequest :=
  { exSimpleReq with temperature := some threeHalves }

/-- A request with temperature 0.5 and otherwise translatable content. -/
def exCoolReq : ChatCompletionRequest :=
  { exSimpleReq with temperature := some oneHalf }

/-- The params computed for `exCoolReq`. -/
def exCoolParams : MessageNewParams :=
  { exSimpleParams with temperature := some oneHalf }

/-- A request with neither token limit but `stream:true`. -/
def exC4Req : ChatCompletionRequest := { exSimpleReq with stream := true }

/-- A streaming request with an over-limit temperature. -/
def exC5Req : ChatCompletionRequest :=
  { exSimpleReq with stream := true, temperature := some threeHalves }

/-- The header mutation `RequestBody` emits for `exSimpleReq`. -/
def exSimpleHm : HeaderMut :=
  [(":path", "publishers/anthropic/models/claude-3-5-haiku:rawPredict"),
   ("content-length", toString exSimpleBody.utf8ByteSize)]

/-- Message list with two maximal user runs separated by a system
message. -/
def exC8Msgs : List OpenAIMsg :=
  [.user (.vStr "a"), .system (.vStr "s"), .user (.vStr "b"),
   .assistant (.vStr "c") []]

/-- The contents the conversion produces for `exC8Msgs`. -/
def exC8Out : List GContent :=
  [⟨"user", [.textG "a", .textG "b"]⟩, ⟨"model", [.textG "c"]⟩]

/-- Message list with a user message and two parallel tool results. -/
def exC8WitnessMsgs : List OpenAIMsg :=
  [.assistant .vNil [⟨"id1", "f1", some .nil⟩, ⟨"id2", "f2", some .nil⟩],
   .tool (.sStr "r1") "id1", .tool (.sStr "r2") "id2"]

/-- A data URI whose payload is not valid base64. -/
def exBadB64URI : String := "data:image/png;base64,%%%"

/-- A response body for an upstream error (not JSON). -/
def exErrRespBody : RespBody := { raw := "upstream had a bad day" }

/-- A successful Anthropic message response. -/
def exOkMessage : AnthropicMessage :=
  { content := [{ btype := "text", text := "hello" }], role := "assistant",
    stopReason := "end_turn", usage := { inputTokens := 3, outputTokens := 5 } }

/-- A response whose stop reason is unknown. -/
def exBadStopBody : RespBody :=
  { asMessage := some { exOkMessage with stopReason := "banana" } }

/-- The params computed for `exSimpleReq` with precedence of
`max_completion_tokens`. -/
def exPrecReq : ChatCompletionRequest :=
  { exSimpleReq with maxTokens := some 5, maxCompletionTokens := some 7 }

/-- The params computed for `exPrecReq`. -/
def exPrecParams : MessageNewParams := { exSimpleParams with maxTokens := 7 }

/-- The contents the conversion produces for `exC8WitnessMsgs`. -/
def exC8WitnessOut : List GContent :=
  [⟨"model", [.functionCall "f1" .nil, .functionCall "f2" .nil]⟩,
   ⟨"user", [.functionResponse "f1" "r1", .functionResponse "f2" "r2"]⟩]

/-! Section: helper lemmas on JSON lookups. -/

theorem lookupKey_setKey_self : ∀ (fs : JsonFields) (k : String) (v : Json),
    (fs.setKey k v).lookupKey k = some v
  | .nil, k, v => by simp [JsonFields.setKey, JsonFields.lookupKey]
  | .cons k' w tl, k, v => by
    by_cases h : k' = k <;>
      simp [JsonFields.setKey, JsonFields.lookupKey, h, lookupKey_setKey_self tl k v]

theorem lookupKey_setKey_other : ∀ (fs : JsonFields) (k : String) (v : Json) (k' : String),
    k' ≠ k → (fs.setKey k v).lookupKey k' = fs.lookupKey k'
  | .nil, k, v, k', h => by
    simp [JsonFields.setKey, JsonFields.lookupKey, Ne.symm h]
  | .cons k2 w tl, k, v, k', h => by
    by_cases h2 : k2 = k
    · subst h2
      simp [JsonFields.setKey, JsonFields.lookupKey, Ne.symm h]
    · by_cases h3 : k2 = k' <;>
        simp [JsonFields.setKey, JsonFields.lookupKey, h2, h3, h,
          lookupKey_setKey_other tl k v k' h]

theorem lookupKey_ofList_eq_none (l : List (String × Json)) (k : String)
    (h : ∀ kv ∈ l, kv.1 ≠ k) : (JsonFields.ofList l).lookupKey k = none := by
  induction l with
  | nil => rfl
  | cons kv tl ih =>
    have hk := h kv (by simp)
    simp only [JsonFields.ofList, JsonFields.lookupKey, if_neg hk]
    exact ih (fun kv' hkv' => h kv' (by simp [hkv']))

theorem marshalParams_lookup_model (p : MessageNewParams) :
    (marshalParams p).lookup "model" = none := by
  simp only [marshalParams, Json.lookup]
  apply lookupKey_ofList_eq_none
  intro kv hkv
  obtain ⟨msgs, mt, sys, tools, tc, temp, topP, stops⟩ := p
  cases temp <;> cases tc <;> cases topP <;>
    simp only [paramFields] at hkv <;>
    split_ifs at hkv <;>
    simp only [List.mem_append, List.mem_cons, List.mem_singleton,
      List.not_mem_nil, or_false, false_or] at hkv <;>
    casesm* _ ∨ _ <;> simp_all

theorem requestBodyJson_lookup_version (p : MessageNewParams) :
    (anthropicRequestBodyJson p).lookup "anthropic_version" =
      some (.jstr "vertex-2023-10-16") := by
  simp only [anthropicRequestBodyJson, marshalParams, Json.setKey, Json.lookup]
  exact lookupKey_setKey_self _ _ _

theorem requestBodyJson_lookup_model (p : MessageNewParams) :
    (anthropicRequestBodyJson p).lookup "model" = none := by
  have h := marshalParams_lookup_model p
  simp only [anthropicRequestBodyJson, marshalParams, Json.setKey, Json.lookup] at h ⊢
  rw [lookupKey_setKey_other _ _ _ _ (by decide)]
  exact h

theorem requestBodyJson_lookup_max_tokens (p : MessageNewParams) :
    (anthropicRequestBodyJson p).lookup "max_tokens" = some (.jint p.maxTokens) := by
  simp only [anthropicRequestBodyJson, marshalParams, Json.setKey, Json.lookup]
  rw [lookupKey_setKey_other _ _ _ _ (by decide)]
  simp [paramFields, JsonFields.ofList, JsonFields.lookupKey]

theorem pathSuffix_eq (m : String) :
    buildGCPModelPathSuffix "anthropic" m "rawPredict" =
      "publishers/anthropic/models/" ++ m ++ ":rawPredict" := by
  simp [buildGCPModelPathSuffix, String.append_assoc]

/-- Success shape of `RequestBody`: whenever it succeeds with params `p`,
the mutations are exactly those of `buildGCPRequestMutations` on the
rendered body. -/
theorem anthropicRequestBody_ok (req : ChatCompletionRequest)
    (p : MessageNewParams) (hm : HeaderMut) (bm : String)
    (hp : buildAnthropicParams req = .ok p)
    (hreq : anthropicRequestBody req = .ok (hm, bm)) :
    bm = (anthropicRequestBodyJson p).render ∧
    hm = [(":path", "publishers/anthropic/models/" ++ req.model ++ ":rawPredict"),
          ("content-length", toString bm.utf8ByteSize)] := by
  unfold anthropicRequestBody at hreq
  rw [hp] at hreq
  by_cases hstream : req.stream
  · simp [hstream] at hreq
  · simp only [hstream, if_false, Bool.false_eq_true, buildGCPRequestMutations,
      Except.ok.injEq, Prod.mk.injEq] at hreq
    obtain ⟨hhm, hbm⟩ := hreq
    subst hbm
    refine ⟨rfl, ?_⟩
    rw [← hhm, pathSuffix_eq]

/-!
Section: claim theorems.
-/

/-- C1: content-length coherence.  `buildGCPRequestMutations` does emit a
`content-length` equal to the body byte length, but `ResponseBody` of the
first GCP-Anthropic translator iteration (openai_gcpanthropic.go lines
286-335) returns a non-nil body mutation next to a `nil` header mutation,
so no content-length header accompanies that body: the claim fails on
that operation (the spec states the contract; the code slipped). -/
theorem c1_response_body_missing_content_length :
    (∀ path body, (buildGCPRequestMutations path body).1 =
      [(":path", path), ("content-length", toString body.utf8ByteSize)]) ∧
    (gcpAnthropicResponseBodyV1 exV1Resp).1 = none ∧
    ((gcpAnthropicResponseBodyV1 exV1Resp).2.1).isSome = true :=
  ⟨fun _ _ => rfl, rfl, rfl⟩

/-- C2: rotation failure handling.  An OIDC fetch failure is returned to
the scheduler with no secret write, but an STS-exchange failure reaches
`log.Fatalf`, which terminates the process instead of returning: the
claim's "never terminates the process" fails on the code. -/
theorem c2_rotate_sts_failure_is_fatal :
    rotate exRotateEnvSTS =
      (.fatalExit "Error exchanging JWT for STS token: connection refused", []) ∧
    rotate exRotateEnvOIDC = (.failed "oidc provider unavailable", []) :=
  ⟨rfl, rfl⟩

/-- C3 counterexample: a request with temperature 1.5 whose message
conversion fails first (audio content) returns the audio error — not an
error whose message contains the temperature template — so the claim's
universally quantified form fails on the code. -/
theorem c3_counterexample_earlier_error_wins :
    exC3Req.temperature = some threeHalves ∧
    anthropicRequestBody exC3Req = .error .audioNotSupported ∧
    (∀ t : ℚ, Err.audioNotSupported ≠ .tempNotSupported t) ∧
    Err.audioNotSupported.render = "input audio content not supported yet" :=
  ⟨rfl, rfl, fun _ h => Err.noConfusion h, rfl⟩

/-- C3 (amended): for a request whose message, tool and stop-sequence
translation succeeds, a set temperature strictly greater than 1.0 makes
`RequestBody` return the temperature error (an error return, hence nil
mutations) whose message instantiates the claimed template, while a
temperature ≤ 1.0 passes the validation and is forwarded unchanged into
the params. -/
theorem c3_temperature_validation (req : ChatCompletionRequest) (t : ℚ)
    (msys : List AMsg × List String)
    (hm : openAIToAnthropicMessages req.messages = .ok msys)
    (tcs : List AnthTool × Option AnthToolChoice)
    (ht : translateOpenAItoAnthropicTools req.tools req.toolChoice req.parallelToolCalls = .ok tcs)
    (ss : List String)
    (hs : extractStopSequencesFromPtrSlice req.stop = .ok ss)
    (htemp : req.temperature = some t) :
    (t > 1 → anthropicRequestBody req = .error (.tempNotSupported t) ∧
      (Err.tempNotSupported t).render =
        "temperature " ++ formatFixed2 t ++
        " is not supported by Anthropic (must be between 0.0 and 1.0)") ∧
    (t ≤ 1 → validateTemperatureForAnthropic (some t) = .ok () ∧
      ∀ p, buildAnthropicParams req = .ok p → p.temperature = some t) := by
  constructor
  · intro hgt
    have hval : validateTemperatureForAnthropic (some t) = .error (.tempNotSupported t) := by
      simp [validateTemperatureForAnthropic, hgt]
    refine ⟨?_, rfl⟩
    simp [anthropicRequestBody, buildAnthropicParams, hm, ht, hs, htemp, hval]
  · intro hle
    have hval : validateTemperatureForAnthropic (some t) = .ok () := by
      simp [validateTemperatureForAnthropic, not_lt.mpr hle]
    refine ⟨hval, ?_⟩
    intro p hp
    simp only [buildAnthropicParams, hm, ht, htemp, hval, hs] at hp
    cases htp : req.topP <;> rw [htp] at hp <;>
      split at hp <;>
      simp only [Except.ok.injEq] at hp <;>
      subst hp <;> rfl

/-- C4 counterexample: with both token limits absent but `stream:true`,
`RequestBody` fails, so "RequestBody succeeds" does not hold of every
request lacking both limits. -/
theorem c4_counterexample_absent_limits_can_fail :
    exC4Req.maxTokens = none ∧ exC4Req.maxCompletionTokens = none ∧
    anthropicRequestBody exC4Req = .error .streamingNotSupported :=
  ⟨rfl, rfl, rfl⟩

/-- Helper: the params' max_tokens is the defaulting expression of
`buildAnthropicParams`. -/
theorem buildAnthropicParams_maxTokens (req : ChatCompletionRequest)
    (p : MessageNewParams) (hp : buildAnthropicParams req = .ok p) :
    p.maxTokens = (match req.maxCompletionTokens with
      | some c => c
      | none => match req.maxTokens with
        | some m => m
        | none => 100) := by
  unfold buildAnthropicParams at hp
  repeat' split at hp
  all_goals simp_all
  all_goals (subst hp; rfl)

/-- C4 (amended): absent limits do not fail the translation for that
reason — the params default max_tokens to 100, a present
max_completion_tokens takes precedence over max_tokens, and whenever
`RequestBody` succeeds the emitted body's `max_tokens` key carries the
params' value. -/
theorem c4_max_tokens_default (req : ChatCompletionRequest) :
    (req.maxTokens = none → req.maxCompletionTokens = none →
      ∀ p, buildAnthropicParams req = .ok p → p.maxTokens = 100) ∧
    (∀ v, req.maxCompletionTokens = some v →
      ∀ p, buildAnthropicParams req = .ok p → p.maxTokens = v) ∧
    (∀ p hm bm, buildAnthropicParams req = .ok p →
      anthropicRequestBody req = .ok (hm, bm) →
      bm = (anthropicRequestBodyJson p).render ∧
      (anthropicRequestBodyJson p).lookup "max_tokens" = some (.jint p.maxTokens)) := by
  refine ⟨?_, ?_, ?_⟩
  · intro h1 h2 p hp
    rw [buildAnthropicParams_maxTokens req p hp, h1, h2]
  · intro v hv p hp
    rw [buildAnthropicParams_maxTokens req p hp, hv]
  · intro p hm bm hp hreq
    obtain ⟨hbm, _⟩ := anthropicRequestBody_ok req p hm bm hp hreq
    exact ⟨hbm, requestBodyJson_lookup_max_tokens p⟩

/-- C5 counterexample: a streaming request whose temperature also exceeds
the limit returns the temperature error, not the fixed streaming error,
so the claim's universally quantified form fails on the code. -/
theorem c5_counterexample_stream_not_checked_first :
    exC5Req.stream = true ∧
    anthropicRequestBody exC5Req = .error (.tempNotSupported threeHalves) ∧
    Err.tempNotSupported threeHalves ≠ .streamingNotSupported :=
  ⟨rfl, rfl, fun h => Err.noConfusion h⟩

/-- C5 (amended): every streaming request whose parameter translation
succeeds is rejected with the fixed streaming error (an error return,
hence nil mutations and no backend-native body). -/
theorem c5_streaming_rejected (req : ChatCompletionRequest)
    (p : MessageNewParams) (hp : buildAnthropicParams req = .ok p)
    (hstream : req.stream = true) :
    anthropicRequestBody req = .error .streamingNotSupported ∧
    Err.streamingNotSupported.render =
      "streaming is not yet supported for GCP Anthropic translation" := by
  refine ⟨?_, rfl⟩
  simp [anthropicRequestBody, hp, hstream]

/-- C6: every successfully translated request emits a JSON body whose
`anthropic_version` key is `"vertex-2023-10-16"` and which has no `model`
key, with the `:path` header set to
`publishers/anthropic/models/{model}:rawPredict` built from the request's
model (and the content-length of the body). -/
theorem c6_version_inserted_model_removed (req : ChatCompletionRequest)
    (p : MessageNewParams) (hm : HeaderMut) (bm : String)
    (hp : buildAnthropicParams req = .ok p)
    (hreq : anthropicRequestBody req = .ok (hm, bm)) :
    bm = (anthropicRequestBodyJson p).render ∧
    (anthropicRequestBodyJson p).lookup "anthropic_version" =
      some (.jstr "vertex-2023-10-16") ∧
    (anthropicRequestBodyJson p).lookup "model" = none ∧
    hm = [(":path", "publishers/anthropic/models/" ++ req.model ++ ":rawPredict"),
          ("content-length", toString bm.utf8ByteSize)] := by
  obtain ⟨hbm, hhm⟩ := anthropicRequestBody_ok req p hm bm hp hreq
  exact ⟨hbm, requestBodyJson_lookup_version p, requestBodyJson_lookup_model p, hhm⟩

/-- C3 witness: temperature 1.5 is rejected through `RequestBody` with the
formatted message, and temperature 0.5 passes and is forwarded. -/
theorem c3_temperature_validation_witness :
    anthropicRequestBody exHotReq = .error (.tempNotSupported threeHalves) ∧
    formatFixed2 threeHalves = "1.50" ∧
    validateTemperatureForAnthropic (some oneHalf) = .ok () ∧
    buildAnthropicParams exCoolReq = .ok exCoolParams ∧
    exCoolParams.temperature = some oneHalf :=
  ⟨((c3_temperature_validation exHotReq threeHalves _ rfl _ rfl _ rfl rfl).1
      (by decide)).1,
   rfl,
   ((c3_temperature_validation exCoolReq oneHalf _ rfl _ rfl _ rfl rfl).2
      (by decide)).1,
   rfl,
   ((c3_temperature_validation exCoolReq oneHalf _ rfl _ rfl _ rfl rfl).2
      (by decide)).2 exCoolParams rfl⟩

/-- C4 witness: in a request without limits the default 100 is used and
the body carries it; a present `max_completion_tokens` wins. -/
theorem c4_max_tokens_default_witness :
    buildAnthropicParams exSimpleReq = .ok exSimpleParams ∧
    exSimpleParams.maxTokens = 100 ∧
    anthropicRequestBody exSimpleReq = .ok (exSimpleHm, exSimpleBody) ∧
    exSimpleBody = (anthropicRequestBodyJson exSimpleParams).render ∧
    (anthropicRequestBodyJson exSimpleParams).lookup "max_tokens" =
      some (.jint 100) ∧
    buildAnthropicParams exPrecReq = .ok exPrecParams ∧
    exPrecParams.maxTokens = 7 :=
  ⟨rfl,
   (c4_max_tokens_default exSimpleReq).1 rfl rfl exSimpleParams rfl,
   rfl,
   ((c4_max_tokens_default exSimpleReq).2.2 exSimpleParams exSimpleHm exSimpleBody rfl rfl).1,
   ((c4_max_tokens_default exSimpleReq).2.2 exSimpleParams exSimpleHm exSimpleBody rfl rfl).2,
   rfl,
   (c4_max_tokens_default exPrecReq).2.1 7 rfl exPrecParams rfl⟩

/-- C5 witness: a streaming request that otherwise translates fine is
rejected with the fixed streaming error. -/
theorem c5_streaming_rejected_witness :
    anthropicRequestBody exC4Req = .error .streamingNotSupported ∧
    Err.streamingNotSupported.render =
      "streaming is not yet supported for GCP Anthropic translation" :=
  c5_streaming_rejected exC4Req exSimpleParams rfl rfl

/-- C6 witness: the emitted body of the simple request carries the version
key and no model key, and the `:path` header targets the model. -/
theorem c6_version_inserted_model_removed_witness :
    exSimpleBody = (anthropicRequestBodyJson exSimpleParams).render ∧
    (anthropicRequestBodyJson exSimpleParams).lookup "anthropic_version" =
      some (.jstr "vertex-2023-10-16") ∧
    (anthropicRequestBodyJson exSimpleParams).lookup "model" = none ∧
    exSimpleHm = [(":path", "publishers/anthropic/models/claude-3-5-haiku:rawPredict"),
      ("content-length", toString exSimpleBody.utf8ByteSize)] := by
  obtain ⟨h1, h2, h3, h4⟩ :=
    c6_version_inserted_model_removed exSimpleReq exSimpleParams exSimpleHm exSimpleBody rfl rfl
  exact ⟨h1, h2, h3, h4⟩

/-- C7: the stop-reason mapping sends end_turn, stop_sequence and
pause_turn to stop, max_tokens to length, tool_use to tool_calls and
refusal to content_filter; every other reason is a hard error, which
`ResponseBody` propagates instead of emitting a canonical response. -/
theorem c7_stop_reason_mapping :
    anthropicToOpenAIFinishReason "end_turn" = .ok "stop" ∧
    anthropicToOpenAIFinishReason "stop_sequence" = .ok "stop" ∧
    anthropicToOpenAIFinishReason "pause_turn" = .ok "stop" ∧
    anthropicToOpenAIFinishReason "max_tokens" = .ok "length" ∧
    anthropicToOpenAIFinishReason "tool_use" = .ok "tool_calls" ∧
    anthropicToOpenAIFinishReason "refusal" = .ok "content_filter" ∧
    (∀ s : String,
      s ∉ (["end_turn", "stop_sequence", "pause_turn",
            "max_tokens", "tool_use", "refusal"] : List String) →
      anthropicToOpenAIFinishReason s = .error (.invalidStopReason s)) ∧
    (∀ (body : RespBody) (m : AnthropicMessage) (eos : Bool),
      body.asMessage = some m →
      anthropicToOpenAIFinishReason m.stopReason =
        .error (.invalidStopReason m.stopReason) →
      anthropicResponseBody [] body eos =
        .error (.invalidStopReason m.stopReason)) := by
  refine ⟨rfl, rfl, rfl, rfl, rfl, rfl, ?_, ?_⟩
  · intro s hs
    simp only [List.mem_cons, List.not_mem_nil, or_false, not_or] at hs
    obtain ⟨h1, h2, h3, h4, h5, h6⟩ := hs
    simp [anthropicToOpenAIFinishReason, h1, h2, h3, h4, h5, h6]
  · intro body m eos hbody herr
    simp [anthropicResponseBody, lookupHeader, anthropicResponseBodyMain, hbody, herr]

/-- C7 witness: the unknown stop reason `banana` is a hard error and
`ResponseBody` fails on a response carrying it. -/
theorem c7_stop_reason_mapping_witness :
    anthropicToOpenAIFinishReason "banana" = .error (.invalidStopReason "banana") ∧
    anthropicResponseBody [] exBadStopBody true = .error (.invalidStopReason "banana") :=
  ⟨c7_stop_reason_mapping.2.2.2.2.2.2.1 "banana" (by decide),
   c7_stop_reason_mapping.2.2.2.2.2.2.2 exBadStopBody
     { exOkMessage with stopReason := "banana" } true rfl rfl⟩

/-- C9: adversarial data URIs produce error values, not crashes: a string
failing the regex yields the format error, a valid data prefix with an
invalid base64 payload yields the corrupt-input error, and the
GCP-Anthropic content conversion propagates any `parseDataURI` failure on
an image part as an error result. -/
theorem c9_data_uri_errors :
    (∀ uri, dataURIMatch uri = none →
      parseDataURI uri = .error .dataURIInvalidFormat) ∧
    (∀ uri ct payload, dataURIMatch uri = some (ct, payload) →
      decodeBase64 (String.mk payload) = none →
      parseDataURI uri = .error .base64Corrupt) ∧
    (∀ url e rest, isDataURI url = true → parseDataURI url = .error e →
      openAIToAnthropicContent (.vUserParts (.imagePart url :: rest)) =
        .error (.failedParseImage e)) := by
  refine ⟨?_, ?_, ?_⟩
  · intro uri h
    simp [parseDataURI, h]
  · intro uri ct payload h hdec
    simp [parseDataURI, h, hdec]
  · intro url e rest hdata herr
    simp [openAIToAnthropicContent, anthropicContentOfParts,
      anthropicContentOfPart, hdata, herr]

/-- C9 witness: a data URI without a comma fails the format check, a bad
base64 payload fails decoding, and the content conversion surfaces the
failure as an error result. -/
theorem c9_data_uri_errors_witness :
    parseDataURI "data:nocomma" = .error .dataURIInvalidFormat ∧
    parseDataURI exBadB64URI = .error .base64Corrupt ∧
    openAIToAnthropicContent (.vUserParts [.imagePart exBadB64URI]) =
      .error (.failedParseImage .base64Corrupt) :=
  ⟨c9_data_uri_errors.1 "data:nocomma" rfl,
   c9_data_uri_errors.2.1 exBadB64URI "image/png" "%%%".toList rfl rfl,
   c9_data_uri_errors.2.2 exBadB64URI .base64Corrupt [] rfl rfl⟩

/-- C10: a present non-2xx `:status` makes `ResponseBody` return exactly
what `ResponseError` returns on the same headers and body, with zero
token usage; an unparsable `:status` is an error (nil mutations). -/
theorem c10_error_status_delegation (respHeaders : List (String × String))
    (body : RespBody) (eos : Bool) (statusStr : String)
    (hst : lookupHeader respHeaders ":status" = some statusStr) :
    (∀ status : Int, goAtoi statusStr = some status →
      isGoodStatusCode status = false →
      anthropicResponseBody respHeaders body eos =
        (match anthropicResponseError respHeaders body with
         | .ok (hm, bm) => .ok (hm, bm, ({} : LLMTokenUsage))
         | .error e => .error e)) ∧
    (goAtoi statusStr = none →
      anthropicResponseBody respHeaders body eos = .error (.statusParse statusStr)) := by
  constructor
  · intro status hatoi hbad
    simp [anthropicResponseBody, hst, hatoi, hbad]
  · intro hatoi
    simp [anthropicResponseBody, hst, hatoi]

/-- C10 witness: a 500 response is delegated to `ResponseError` with zero
usage, and a malformed status string is a parse error. -/
theorem c10_error_status_delegation_witness :
    anthropicResponseBody [(":status", "500")] exErrRespBody true =
      (match anthropicResponseError [(":status", "500")] exErrRespBody with
       | .ok (hm, bm) => .ok (hm, bm, ({} : LLMTokenUsage))
       | .error e => .error e) ∧
    anthropicResponseBody [(":status", "5x0")] exErrRespBody true =
      .error (.statusParse "5x0") :=
  ⟨(c10_error_status_delegation [(":status", "500")] exErrRespBody true "500" rfl).1
      500 rfl rfl,
   (c10_error_status_delegation [(":status", "5x0")] exErrRespBody true "5x0" rfl).2 rfl⟩

/-! Section: the user-content grouping invariant of `toGeminiContents`. -/

theorem getLast?_append_singleton {α : Type} (l : List α) (a : α) :
    (l ++ [a]).getLast? = some a := by
  induction l with
  | nil => rfl
  | cons x xs ih =>
    rw [List.cons_append, List.getLast?_cons, ih]
    cases xs <;> simp

theorem noAdj_append_of_lastNotUser (cs : List GContent) (c : GContent)
    (h1 : noAdjacentUserContents cs) (h2 : lastNotUser cs) :
    noAdjacentUserContents (cs ++ [c]) := by
  rw [noAdjacentUserContents, List.chain'_append]
  refine ⟨h1, List.chain'_singleton c, ?_⟩
  intro x hx y _ hux
  exact absurd hux (h2 x hx)

theorem noAdj_append_of_notUser (cs : List GContent) (c : GContent)
    (h1 : noAdjacentUserContents cs) (hc : c.role ≠ "user") :
    noAdjacentUserContents (cs ++ [c]) := by
  rw [noAdjacentUserContents, List.chain'_append]
  refine ⟨h1, List.chain'_singleton c, ?_⟩
  intro x _ y hy _
  simp only [List.head?_cons, Option.mem_def, Option.some.injEq] at hy
  rw [← hy]
  exact hc

theorem lastNotUser_append (cs : List GContent) (c : GContent)
    (hc : c.role ≠ "user") : lastNotUser (cs ++ [c]) := by
  intro x hx
  rw [getLast?_append_singleton] at hx
  simp only [Option.mem_def, Option.some.injEq] at hx
  rw [← hx]
  exact hc

/-- Loop invariant: starting from emitted contents with no two adjacent
user contents whose last element is not user-role, the conversion only
produces content lists with no two adjacent user contents. -/
theorem toGeminiContentsAux_noAdj :
    ∀ (msgs : List OpenAIMsg) (cs : List GContent) (sys : Option (List GPart))
      (known : List (String × String)) (ps : List GPart),
      noAdjacentUserContents cs → lastNotUser cs →
      ∀ out, toGeminiContentsAux msgs cs sys known ps = .ok out →
      noAdjacentUserContents out.1
  | [], cs, sys, known, ps => by
    intro h1 h2 out hout
    simp only [toGeminiContentsAux, Except.ok.injEq] at hout
    subst hout
    by_cases hps : ps.isEmpty <;> simp only [hps, if_true, if_false]
    · exact h1
    · exact noAdj_append_of_lastNotUser cs _ h1 h2
  | .developer c :: msgs, cs, sys, known, ps => by
    intro h1 h2 out hout
    simp only [toGeminiContentsAux] at hout
    cases hc : fromDeveloperMsg c with
    | error e => simp only [hc] at hout; exact Except.noConfusion hout
    | ok inst =>
      simp only [hc] at hout
      split at hout
      · exact toGeminiContentsAux_noAdj msgs cs sys known ps h1 h2 out hout
      · exact toGeminiContentsAux_noAdj msgs cs _ known ps h1 h2 out hout
  | .system c :: msgs, cs, sys, known, ps => by
    intro h1 h2 out hout
    simp only [toGeminiContentsAux] at hout
    cases hc : fromDeveloperMsg c with
    | error e => simp only [hc] at hout; exact Except.noConfusion hout
    | ok inst =>
      simp only [hc] at hout
      split at hout
      · exact toGeminiContentsAux_noAdj msgs cs sys known ps h1 h2 out hout
      · exact toGeminiContentsAux_noAdj msgs cs _ known ps h1 h2 out hout
  | .user c :: msgs, cs, sys, known, ps => by
    intro h1 h2 out hout
    simp only [toGeminiContentsAux] at hout
    cases hc : fromUserMsg c with
    | error e => simp only [hc] at hout; exact Except.noConfusion hout
    | ok parts =>
      simp only [hc] at hout
      exact toGeminiContentsAux_noAdj msgs cs sys known _ h1 h2 out hout
  | .tool c toolCallId :: msgs, cs, sys, known, ps => by
    intro h1 h2 out hout
    simp only [toGeminiContentsAux] at hout
    cases hc : fromToolMsg c toolCallId known with
    | error e => simp only [hc] at hout; exact Except.noConfusion hout
    | ok part =>
      simp only [hc] at hout
      exact toGeminiContentsAux_noAdj msgs cs sys known _ h1 h2 out hout
  | .assistant c toolCalls :: msgs, cs, sys, known, ps => by
    intro h1 h2 out hout
    simp only [toGeminiContentsAux] at hout
    cases hc : fromAssistantMsg c toolCalls with
    | error e => simp only [hc] at hout; exact Except.noConfusion hout
    | ok pk =>
      obtain ⟨assistantParts, newCalls⟩ := pk
      simp only [hc] at hout
      have hflush1 : noAdjacentUserContents
          ((if ps.isEmpty then cs else cs ++ [⟨"user", ps⟩]) ++
            [⟨"model", assistantParts⟩]) := by
        by_cases hps : ps.isEmpty <;> simp only [hps, if_true, if_false]
        · exact noAdj_append_of_notUser cs _ h1 (by simp)
        · exact noAdj_append_of_notUser _ _
            (noAdj_append_of_lastNotUser cs _ h1 h2) (by simp)
      have hflush2 : lastNotUser
          ((if ps.isEmpty then cs else cs ++ [⟨"user", ps⟩]) ++
            [⟨"model", assistantParts⟩]) :=
        lastNotUser_append _ _ (by simp)
      exact toGeminiContentsAux_noAdj msgs _ sys _ [] hflush1 hflush2 out hout
  | .unknownRole r :: msgs, cs, sys, known, ps => by
    intro h1 h2 out hout
    simp only [toGeminiContentsAux] at hout
    exact Except.noConfusion hout

/-- C8 counterexample: the input has two maximal runs of user/tool
messages (separated by a system message), but the conversion merges them
into a single user content, so "every maximal run is emitted as exactly
one user content" fails on the code. -/
theorem c8_counterexample_runs_merge :
    toGeminiContents exC8Msgs = .ok (exC8Out, some [.textG "s"]) ∧
    countMaximalRuns exC8Msgs = 2 ∧
    countUserContents exC8Out = 1 ∧
    countUserContents exC8Out ≠ countMaximalRuns exC8Msgs :=
  ⟨rfl, rfl, rfl, by decide⟩

/-- C8 (amended): accumulated user/tool parts are flushed as a single
user content only before an assistant message and once at the end, so the
emitted contents never contain two adjacent user-role contents — each run
of user/tool messages yields at most one user content (and runs separated
only by system/developer messages merge into one). -/
theorem c8_user_tool_grouping (msgs : List OpenAIMsg)
    (out : List GContent × Option (List GPart))
    (h : toGeminiContents msgs = .ok out) :
    noAdjacentUserContents out.1 :=
  toGeminiContentsAux_noAdj msgs [] none [] []
    (by simp [noAdjacentUserContents]) (by intro c hc; simp at hc) out h

/-- C8 witness: parallel tool results after an assistant turn land in one
user content, and the output has no two adjacent user contents. -/
theorem c8_user_tool_grouping_witness :
    toGeminiContents exC8WitnessMsgs = .ok (exC8WitnessOut, none) ∧
    noAdjacentUserContents exC8WitnessOut :=
  ⟨rfl, c8_user_tool_grouping exC8WitnessMsgs (exC8WitnessOut, none) rfl⟩

end AIGW
